import Mathlib

/-!
Verification of the AI-loan-obligation-tracker extraction/scoring core.

The Python sources are shallowly embedded as executable Lean definitions:

* `src/utils/risk_scoring.py` — `calculate_risk_score`, `calculate_deadline_risk`,
  `categorize_risk_level`, `update_obligation_risks`, `get_upcoming_deadlines`.
  The Python float computation `type_mult * 50 * risk_mult + factor` is modelled
  over `ℚ`.  This is exact: the IEEE-double products `0.6 * 50` and `0.4 * 50`
  round to exactly `30.0` and `20.0` (the error is below half an ulp), the other
  bases `50`, `25` are dyadic, multiplication by `1.5`/`0.5` of these values is
  exact, and the final integer addition is exact, so the double computation
  agrees with the rational one on every input.
* `src/extractor/obligation_extractor.py` — `_split_into_sentences` and
  `_deduplicate_obligations`.  Python's `\w`/`\W` and `str.strip()` are modelled
  over their ASCII behaviour.
* `src/extractor/deadline_parser.py` — `parse_deadline`,
  `calculate_expected_date`, `get_compliance_status`.  The concrete regular
  expressions of the source are compiled by hand into deterministic scanners;
  each scanner is faithful to Python `re.search` semantics (leftmost match,
  alternation order).  For every alternation appearing in the source the
  alternatives start with pairwise-distinct characters and every greedy
  quantifier is followed by a token its repeated class cannot start, so the
  backtracking engine and the deterministic scanner agree.
* Dates: Python `datetime` is modelled by a civil `(year, month, day)` triple
  plus, where the time of day matters (`get_compliance_status`), microseconds
  within the day.  Day arithmetic goes through proleptic-Gregorian ordinals
  (`datetime.toordinal` semantics, ordinal 1 = 0001-01-01); additions that
  leave Python's `datetime` range `[0001-01-01, 9999-12-31]` raise `OverflowError`
  in Python and are modelled as `none`.
-/

/-! ## Civil-date model (Python `datetime`, date part) -/

structure Date where
  year : Int
  month : Int
  day : Int
deriving DecidableEq

/-- Python `datetime` value: civil date plus microseconds within the day
(`datetime.today()` carries a time of day; `strptime` results are midnight). -/
structure PyDateTime where
  date : Date
  usec : Int
deriving DecidableEq

/-- `calendar.isleap` from CPython. -/
def isLeapYear (y : Int) : Bool :=
  y % 4 = 0 && (y % 100 ≠ 0 || y % 400 = 0)

/-- `calendar.monthrange(y, m)[1]`: number of days of month `m` of year `y`. -/
def daysInMonth (y m : Int) : Int :=
  if m = 2 then (if isLeapYear y then 29 else 28)
  else if m = 4 || m = 6 || m = 9 || m = 11 then 30
  else 31

/-- Days since 1970-01-01 of a civil date (Hinnant's `days_from_civil`). -/
def daysFromCivil (d : Date) : Int :=
  let y := d.year - (if d.month ≤ 2 then 1 else 0)
  let era := Int.fdiv y 400
  let yoe := y - era * 400
  let mp := Int.emod (d.month + 9) 12
  let doy := Int.fdiv (153 * mp + 2) 5 + d.day - 1
  let doe := yoe * 365 + Int.fdiv yoe 4 - Int.fdiv yoe 100 + doy
  era * 146097 + doe - 719468

/-- Civil date of a 1970-01-01-based day number (Hinnant's `civil_from_days`). -/
def civilFromDays (z0 : Int) : Date :=
  let z := z0 + 719468
  let era := Int.fdiv z 146097
  let doe := z - era * 146097
  let yoe := Int.fdiv (doe - Int.fdiv doe 1460 + Int.fdiv doe 36524 - Int.fdiv doe 146096) 365
  let y := yoe + era * 400
  let doy := doe - (365 * yoe + Int.fdiv yoe 4 - Int.fdiv yoe 100)
  let mp := Int.fdiv (5 * doy + 2) 153
  let d := doy - Int.fdiv (153 * mp + 2) 5 + 1
  let m := if mp < 10 then mp + 3 else mp - 9
  ⟨y + (if m ≤ 2 then 1 else 0), m, d⟩

/-- Python `date.toordinal()` (ordinal 1 = 0001-01-01). -/
def toOrdinal (d : Date) : Int :=
  daysFromCivil d + 719163

/-- Inverse of `toOrdinal`. -/
def ordinalToDate (o : Int) : Date :=
  civilFromDays (o - 719163)

/-- `d + timedelta(days = n)` on the date part.  Python raises `OverflowError`
when the result leaves `[datetime.min, datetime.max]`; that is modelled as
`none` (`datetime.max.toordinal() = 3652059`). -/
def pyAddDays (d : Date) (n : Int) : Option Date :=
  let o := toOrdinal d + n
  if 1 ≤ o ∧ o ≤ 3652059 then some (ordinalToDate o) else none

/-- Zero-pad a (nonnegative, at most two-digit) field to width two. -/
def pad2 (n : Int) : String :=
  if n < 10 then "0" ++ toString n else toString n

/-- `strftime("%Y-%m-%d")` (years of the program are four-digit, printed plain). -/
def formatDate (d : Date) : String :=
  toString d.year ++ "-" ++ pad2 d.month ++ "-" ++ pad2 d.day

/-! ## Character-level helpers for the hand-compiled regular expressions -/

/-- Python `\s` on its ASCII members (` `, `\t`, `\n`, `\r`, `\x0b`, `\x0c`). -/
def pyIsSpace (c : Char) : Bool :=
  c = ' ' || c = '\t' || c = '\n' || c = '\r' || c = '\x0b' || c = '\x0c'

/-- Python `\w` on its ASCII members (letters, digits, underscore). -/
def pyIsWordChar (c : Char) : Bool :=
  ('a' ≤ c && c ≤ 'z') || ('A' ≤ c && c ≤ 'Z') || ('0' ≤ c && c ≤ '9') || c = '_'

/-- ASCII decimal digit (Python `\d` on ASCII). -/
def isDig (c : Char) : Bool :=
  '0' ≤ c && c ≤ '9'

def digitVal (c : Char) : Int :=
  (c.toNat : Int) - 48

/-- Case-insensitive literal match: strip `lit` (given in lowercase) from the
front of `cs`, returning the remainder. -/
def stripLitCI : List Char → List Char → Option (List Char)
  | [], cs => some cs
  | _ :: _, [] => none
  | l :: ls, c :: cs => if c.toLower = l then stripLitCI ls cs else none

/-- Case-sensitive substring test (Python `needle in hay` on `str`). -/
def listContainsSub (needle : List Char) : List Char → Bool
  | [] => needle = []
  | c :: cs => (needle.isPrefixOf (c :: cs)) || listContainsSub needle cs

def containsSub (needle hay : String) : Bool :=
  listContainsSub needle.toList hay.toList

/-- Case-insensitive substring test (an `(?i)` literal-only `re.search`). -/
def listContainsCI (needle : List Char) : List Char → Bool
  | [] => needle = []
  | c :: cs => (stripLitCI needle (c :: cs)).isSome || listContainsCI needle cs

def containsCI (needle hay : String) : Bool :=
  listContainsCI needle.toList hay.toList

/-- Python `str.lower()` (ASCII behaviour). -/
def pyLower (s : String) : String :=
  String.mk (s.toList.map Char.toLower)

/-- Python `str.strip()` (ASCII-whitespace behaviour). -/
def pyStrip (s : String) : String :=
  String.mk (((s.toList.dropWhile pyIsSpace).reverse.dropWhile pyIsSpace).reverse)

/-- Python `int(str)`: optional surrounding whitespace, optional sign, a
nonempty digit run with single underscores allowed between digits.
`none` models the `ValueError` raised on any other input. -/
def pyIntParse (s : String) : Option Int :=
  let cs := (s.toList.dropWhile pyIsSpace).reverse.dropWhile pyIsSpace |>.reverse
  let (sign, cs) : Int × List Char :=
    match cs with
    | '-' :: rest => (-1, rest)
    | '+' :: rest => (1, rest)
    | rest => (1, rest)
  let rec go (acc : Int) : List Char → Option Int
    | [] => some acc
    | '_' :: c :: rest => if isDig c then go (acc * 10 + digitVal c) rest else none
    | c :: rest => if isDig c then go (acc * 10 + digitVal c) rest else none
  match cs with
  | [] => none
  | c :: rest => if isDig c then (go (digitVal c) rest).map (sign * ·) else none

/-! ## Risk scoring (`src/utils/risk_scoring.py`) -/

/-- One obligation dict.  Keys read with `dict.get` in the source are modelled
as `Option` fields (absent key = `none`); `description` is read with plain
indexing in `_deduplicate_obligations`, hence a plain field. -/
structure Obligation where
  type : Option String
  description : String
  risk_level : Option String
  compliance_status : Option String
  risk_score : Option Int
  risk_category : Option String
deriving DecidableEq

/-- `type_multipliers.get(t, 0.5)` (lines 22–28 of `risk_scoring.py`). -/
def type_multipliers (t : String) : ℚ :=
  if t = "Financial Covenant" then 1
  else if t = "Reporting" then 0.6
  else if t = "Notification" then 0.4
  else 0.5

/-- `risk_level_multipliers.get(r, 1.0)` (lines 31–37). -/
def risk_level_multipliers (r : String) : ℚ :=
  if r = "High" then 1.5
  else if r = "Medium" then 1
  else if r = "Low" then 0.5
  else 1

/-- `calculate_deadline_risk` (lines 50–67). -/
def calculate_deadline_risk (compliance_status : String) : Int :=
  if compliance_status = "Missed" then 30
  else if compliance_status = "Due Soon" then 15
  else if compliance_status = "Compliant" then 0
  else 5

/-- Python `int(q)` on a rational: truncation toward zero. -/
def pyTrunc (q : ℚ) : Int :=
  q.num.tdiv (q.den : Int)

/-- `calculate_risk_score` (lines 9–47): `base = type_mult * 50`, then
`base *= risk_mult`, then `base += deadline_factor`, then
`min(100, max(0, int(base)))`. -/
def calculate_risk_score (o : Obligation) : Int :=
  let base0 : ℚ := type_multipliers (o.type.getD "") * 50
  let base1 : ℚ := base0 * risk_level_multipliers (o.risk_level.getD "Medium")
  let base2 : ℚ := base1 + (calculate_deadline_risk (o.compliance_status.getD "") : ℚ)
  min 100 (max 0 (pyTrunc base2))

/-- `categorize_risk_level` (lines 70–85). -/
def categorize_risk_level (score : Int) : String :=
  if score < 30 then "Low"
  else if score < 70 then "Medium"
  else "High"

/-- `update_obligation_risks` (lines 88–103): annotates each obligation with
`risk_score` and `risk_category`, returning the list in order. -/
def update_obligation_risks (obligations : List Obligation) : List Obligation :=
  obligations.map fun o =>
    let rs := calculate_risk_score o
    { o with risk_score := some rs, risk_category := some (categorize_risk_level rs) }

/-- `get_upcoming_deadlines` (lines 119–137), translated loop-for-loop: an
accumulator receives each obligation whose `compliance_status` is `"Due Soon"`;
`days_ahead` is accepted and never read. -/
def get_upcoming_deadlines (obligations : List Obligation) (days_ahead : Int) : List Obligation :=
  obligations.foldl
    (fun upcoming o =>
      if o.compliance_status.getD "" = "Due Soon" then upcoming ++ [o] else upcoming)
    []

/-! ## Claims C5, C6, C8 — risk scoring -/

/-- Type weight exactly as the claim words it (`1.0` Financial Covenant,
`0.6` Reporting, `0.4` Notification, `0.5` otherwise). -/
def claimTypeWeight (t : String) : ℚ :=
  if t = "Financial Covenant" then 1
  else if t = "Reporting" then 0.6
  else if t = "Notification" then 0.4
  else 0.5

/-- Risk-level weight exactly as the claim words it. -/
def claimRiskWeight (r : String) : ℚ :=
  if r = "High" then 1.5
  else if r = "Medium" then 1
  else if r = "Low" then 0.5
  else 1

/-- Urgency term exactly as the claim words it. -/
def claimUrgency (c : String) : Int :=
  if c = "Missed" then 30
  else if c = "Due Soon" then 15
  else if c = "Compliant" then 0
  else 5

/-- **C5** — after `update_obligation_risks`, every obligation carries a
`risk_score` in `[0, 100]` and a `risk_category` equal to
`categorize_risk_level` of that score; the banding is `<30 → Low`,
`<70 → Medium`, otherwise `High`, with `29 → Low`, `30 → Medium`,
`69 → Medium`, `70 → High` at the boundaries. -/
theorem update_obligation_risks_invariant (obs : List Obligation) (o : Obligation)
    (h : o ∈ update_obligation_risks obs) :
    (∃ rs, o.risk_score = some rs ∧ 0 ≤ rs ∧ rs ≤ 100 ∧
      o.risk_category = some (categorize_risk_level rs)) ∧
    categorize_risk_level 29 = "Low" ∧ categorize_risk_level 30 = "Medium" ∧
    categorize_risk_level 69 = "Medium" ∧ categorize_risk_level 70 = "High" := by
  refine ⟨?_, rfl, rfl, rfl, rfl⟩
  obtain ⟨o0, _, rfl⟩ := List.mem_map.1 h
  refine ⟨calculate_risk_score o0, rfl, ?_, ?_, rfl⟩
  · exact le_min (by norm_num) (le_max_left 0 _)
  · exact min_le_left _ _

/-- Witness for C5 at a concrete one-element list. -/
theorem update_obligation_risks_invariant_witness :
    (∃ rs, (Obligation.mk (some "Reporting") "x" (some "High") (some "Missed")
        (some 75) (some "High")).risk_score = some rs ∧ 0 ≤ rs ∧ rs ≤ 100 ∧
      (Obligation.mk (some "Reporting") "x" (some "High") (some "Missed")
        (some 75) (some "High")).risk_category = some (categorize_risk_level rs)) ∧
    categorize_risk_level 29 = "Low" ∧ categorize_risk_level 30 = "Medium" ∧
    categorize_risk_level 69 = "Medium" ∧ categorize_risk_level 70 = "High" :=
  update_obligation_risks_invariant
    [Obligation.mk (some "Reporting") "x" (some "High") (some "Missed") none none]
    (Obligation.mk (some "Reporting") "x" (some "High") (some "Missed")
      (some 75) (some "High"))
    (by
      have hs : calculate_risk_score
          (Obligation.mk (some "Reporting") "x" (some "High") (some "Missed") none none)
          = 75 := by
        have hq : type_multipliers "Reporting" * 50 * risk_level_multipliers "High"
            + (calculate_deadline_risk "Missed" : ℚ) = 75 := by
          have h1 : type_multipliers "Reporting" = 0.6 := rfl
          have h2 : risk_level_multipliers "High" = 1.5 := rfl
          have h3 : calculate_deadline_risk "Missed" = 30 := rfl
          rw [h1, h2, h3]; norm_num
        simp only [calculate_risk_score, Option.getD_some, hq]
        norm_num [pyTrunc]
      simp [update_obligation_risks, hs, categorize_risk_level])

/-- **C6** — `calculate_risk_score` equals the clamp to `[0, 100]` of the
truncation toward zero of `type weight × 50 × risk-level weight + urgency`,
with the weight tables of the claim; a Financial Covenant / High / Missed
obligation scores exactly 100.  (The Python float computation is exact at
every reachable value, so the rational model coincides with it.) -/
theorem calculate_risk_score_formula (o : Obligation) :
    calculate_risk_score o =
      min 100 (max 0 (pyTrunc
        (claimTypeWeight (o.type.getD "") * 50 * claimRiskWeight (o.risk_level.getD "Medium")
          + (claimUrgency (o.compliance_status.getD "") : ℚ)))) ∧
    calculate_risk_score
      (Obligation.mk (some "Financial Covenant") "" (some "High") (some "Missed")
        none none) = 100 :=
  ⟨rfl, by
    have hq : type_multipliers "Financial Covenant" * 50 * risk_level_multipliers "High"
        + (calculate_deadline_risk "Missed" : ℚ) = 105 := by
      have h1 : type_multipliers "Financial Covenant" = 1 := rfl
      have h2 : risk_level_multipliers "High" = 1.5 := rfl
      have h3 : calculate_deadline_risk "Missed" = 30 := rfl
      rw [h1, h2, h3]; norm_num
    simp only [calculate_risk_score, Option.getD_some, hq]
    norm_num [pyTrunc]⟩

/-- **C8** — `get_upcoming_deadlines` returns exactly the obligations whose
`compliance_status` is `"Due Soon"`, in order, and is independent of
`days_ahead`. -/
theorem get_upcoming_deadlines_spec (obligations : List Obligation) (days_ahead : Int) :
    get_upcoming_deadlines obligations days_ahead =
      obligations.filter (fun o => o.compliance_status.getD "" = "Due Soon") ∧
    ∀ d2 : Int, get_upcoming_deadlines obligations days_ahead =
      get_upcoming_deadlines obligations d2 := by
  have acc_lemma : ∀ (l acc : List Obligation),
      l.foldl (fun upcoming o =>
          if o.compliance_status.getD "" = "Due Soon" then upcoming ++ [o] else upcoming) acc
        = acc ++ l.filter (fun o => o.compliance_status.getD "" = "Due Soon") := by
    intro l
    induction l with
    | nil => intro acc; simp
    | cons x xs ih =>
      intro acc
      by_cases h : x.compliance_status.getD "" = "Due Soon" <;>
        simp [h, ih, List.filter_cons]
  exact ⟨by simpa using acc_lemma obligations [], fun _ => rfl⟩

/-! ## Sentence splitting (`obligation_extractor.py`, lines 85–93) -/

/-- Character class `[.!?]` of the split pattern. -/
def punctChar (c : Char) : Bool :=
  c = '.' || c = '!' || c = '?'

/-- `re.split(r'[.!?]+|;\s+|\n+', text)` on the character list, accumulating
the current fragment in reverse.  The regex alternatives start with `.`/`!`/`?`,
`;` (followed by whitespace) and `\n` respectively, so the leftmost-match scan
is the linear scan below; each `+` run is consumed maximally.  The `fuel`
argument only makes the recursion structural (every step consumes at least one
character, so `length + 1` fuel is never exhausted). -/
def fragsAux : Nat → List Char → List Char → List (List Char)
  | 0, _, acc => [acc.reverse]
  | _ + 1, [], acc => [acc.reverse]
  | fuel + 1, c :: rest, acc =>
    if punctChar c then
      acc.reverse :: fragsAux fuel (rest.dropWhile punctChar) []
    else if c = ';' && (match rest with | d :: _ => pyIsSpace d | [] => false) then
      acc.reverse :: fragsAux fuel (rest.dropWhile pyIsSpace) []
    else if c = '\n' then
      acc.reverse :: fragsAux fuel (rest.dropWhile (fun d => d = '\n')) []
    else
      fragsAux fuel rest (c :: acc)

/-- The raw fragment list produced by the `re.split` call. -/
def rawFrags (text : String) : List String :=
  (fragsAux (text.toList.length + 1) text.toList []).map String.mk

/-- `_split_into_sentences` (lines 85–93): split, then
`[s.strip() for s in sentences if len(s.strip()) > 20]`. -/
def split_into_sentences (text : String) : List String :=
  ((rawFrags text).filter (fun s => 20 < (pyStrip s).length)).map pyStrip

/-! ## Deduplication (`obligation_extractor.py`, lines 230–250) -/

/-- `re.sub(r'\W+', '', description.lower())`: lower-case, then drop every
non-word character. -/
def normDesc (s : String) : String :=
  String.mk ((s.toList.map Char.toLower).filter pyIsWordChar)

/-- The loop of `_deduplicate_obligations`: `seen` holds the normalized
descriptions already kept. -/
def dedupAux (seen : List String) : List Obligation → List Obligation
  | [] => []
  | o :: rest =>
    if normDesc o.description ∈ seen then dedupAux seen rest
    else o :: dedupAux (normDesc o.description :: seen) rest

/-- `_deduplicate_obligations` (lines 230–250). -/
def deduplicate_obligations (obligations : List Obligation) : List Obligation :=
  dedupAux [] obligations

/-! ## Claim C4 — splitter drop rule -/

/-- **C4, counterexample** — a fragment whose trimmed length is exactly 20 is
*discarded* by `_split_into_sentences` (the filter keeps `len > 20` only),
refuting the claim that every fragment of trimmed length ≥ 20 is retained. -/
theorem split_drops_length_20_fragment :
    split_into_sentences "abcdefghijklmnopqrst" = [] ∧
    (pyStrip "abcdefghijklmnopqrst").length = 20 ∧
    rawFrags "abcdefghijklmnopqrst" = ["abcdefghijklmnopqrst"] := by
  refine ⟨?_, ?_, ?_⟩ <;> decide

/-- **C4, amended** — a raw fragment reaches classification (i.e. its trimmed
form is in the splitter's output) exactly when its trimmed length is strictly
greater than 20: fragments of trimmed length ≤ 20 are discarded, fragments of
trimmed length ≥ 21 are retained (in trimmed form). -/
theorem split_retains_iff_trimmed_length_gt_20 (text s : String)
    (h : s ∈ rawFrags text) :
    20 < (pyStrip s).length ↔ pyStrip s ∈ split_into_sentences text := by
  unfold split_into_sentences
  constructor
  · intro hlen
    exact List.mem_map.2 ⟨s, List.mem_filter.2 ⟨h, by simpa using hlen⟩, rfl⟩
  · intro hmem
    obtain ⟨t, ht, heq⟩ := List.mem_map.1 hmem
    have hlen := (List.mem_filter.1 ht).2
    have hlen2 : (pyStrip t).length = (pyStrip s).length := by rw [heq]
    simpa [hlen2] using hlen

/-- Witness for C4 (amended): the 44-character first fragment of a two-sentence
text is retained. -/
theorem split_retains_iff_witness :
    pyStrip "The borrower shall deliver annual statements" ∈
      split_into_sentences "The borrower shall deliver annual statements. ok" :=
  (split_retains_iff_trimmed_length_gt_20
    "The borrower shall deliver annual statements. ok"
    "The borrower shall deliver annual statements" (by decide)).mp (by decide)

/-! ## Claim C7 — deduplication -/

/-- Two `seen` lists with the same members drive `dedupAux` identically. -/
theorem dedupAux_congr (l : List Obligation) :
    ∀ seen₁ seen₂ : List String,
      (∀ a, a ∈ seen₁ ↔ a ∈ seen₂) →
      dedupAux seen₁ l = dedupAux seen₂ l := by
  induction l with
  | nil => intro _ _ _; rfl
  | cons o rest ih =>
    intro s1 s2 hmem
    simp only [dedupAux]
    by_cases h : normDesc o.description ∈ s2
    · rw [if_pos ((hmem _).2 h), if_pos h]
      exact ih _ _ hmem
    · rw [if_neg (fun hc => h ((hmem _).1 hc)), if_neg h]
      refine congrArg _ (ih _ _ ?_)
      intro a
      simp only [List.mem_cons]
      exact or_congr Iff.rfl (hmem a)

/-- Seeding `dedupAux` with one extra normalized description is the same as
pre-filtering that description away. -/
theorem dedupAux_seen_filter (l : List Obligation) :
    ∀ (seen : List String) (s : String),
      dedupAux (s :: seen) l =
        dedupAux seen (l.filter (fun x => normDesc x.description ≠ s)) := by
  induction l with
  | nil => intro _ _; rfl
  | cons o rest ih =>
    intro seen s
    by_cases hs : normDesc o.description = s
    · have hfil : (o :: rest).filter (fun x => normDesc x.description ≠ s)
          = rest.filter (fun x => normDesc x.description ≠ s) := by
        simp [List.filter_cons, hs]
      rw [hfil]
      simp only [dedupAux]
      rw [if_pos (by simp [hs])]
      exact ih seen s
    · have hfil : (o :: rest).filter (fun x => normDesc x.description ≠ s)
          = o :: rest.filter (fun x => normDesc x.description ≠ s) := by
        simp [List.filter_cons, hs]
      rw [hfil]
      by_cases hseen : normDesc o.description ∈ seen
      · simp only [dedupAux]
        rw [if_pos (by simp [List.mem_cons, hseen]), if_pos hseen]
        exact ih seen s
      · simp only [dedupAux]
        rw [if_neg (by simp [List.mem_cons, hs, hseen]), if_neg hseen]
        refine congrArg _ ?_
        have swap : ∀ a, a ∈ (normDesc o.description :: s :: seen) ↔
            a ∈ (s :: normDesc o.description :: seen) := by
          intro a; simp only [List.mem_cons]; tauto
        rw [dedupAux_congr rest _ _ swap]
        exact ih (normDesc o.description :: seen) s

/-- Every element emitted by `dedupAux` has a normalized description outside
`seen`. -/
theorem dedupAux_mem_not_seen (l : List Obligation) :
    ∀ (seen : List String) (x : Obligation), x ∈ dedupAux seen l →
      normDesc x.description ∉ seen := by
  induction l with
  | nil => intro _ _ h; simp [dedupAux] at h
  | cons o rest ih =>
    intro seen x hx
    simp only [dedupAux] at hx
    by_cases h : normDesc o.description ∈ seen
    · rw [if_pos h] at hx
      exact ih seen x hx
    · rw [if_neg h] at hx
      rcases List.mem_cons.1 hx with rfl | hx2
      · exact h
      · have := ih _ x hx2
        simp only [List.mem_cons] at this
        exact fun hc => this (Or.inr hc)

/-- The output of `dedupAux` has pairwise-distinct normalized descriptions. -/
theorem dedupAux_pairwise (l : List Obligation) :
    ∀ seen : List String,
      (dedupAux seen l).Pairwise
        (fun a b => normDesc a.description ≠ normDesc b.description) := by
  induction l with
  | nil => intro _; simp [dedupAux]
  | cons o rest ih =>
    intro seen
    simp only [dedupAux]
    by_cases h : normDesc o.description ∈ seen
    · rw [if_pos h]; exact ih seen
    · rw [if_neg h]
      refine List.Pairwise.cons ?_ (ih _)
      intro b hb heq
      have hnot := dedupAux_mem_not_seen rest _ b hb
      exact hnot (by simp [List.mem_cons, heq])

/-- On a list whose normalized descriptions avoid `seen` and are pairwise
distinct, `dedupAux` is the identity. -/
theorem dedupAux_fixed (l : List Obligation) :
    ∀ seen : List String,
      (∀ x ∈ l, normDesc x.description ∉ seen) →
      l.Pairwise (fun a b => normDesc a.description ≠ normDesc b.description) →
      dedupAux seen l = l := by
  induction l with
  | nil => intro _ _ _; rfl
  | cons o rest ih =>
    intro seen hseen hpw
    simp only [dedupAux]
    rw [if_neg (hseen o (List.mem_cons_self o rest))]
    refine congrArg _ (ih _ ?_ (List.Pairwise.of_cons hpw))
    intro x hx
    simp only [List.mem_cons]
    rintro (hc | hc)
    · exact (List.pairwise_cons.1 hpw).1 x hx hc.symm
    · exact hseen x (List.mem_cons_of_mem o hx) hc

/-- `dedupAux` output is a sublist of its input (original order preserved). -/
theorem dedupAux_sublist (l : List Obligation) :
    ∀ seen : List String, (dedupAux seen l).Sublist l := by
  induction l with
  | nil => intro _; simp [dedupAux]
  | cons o rest ih =>
    intro seen
    simp only [dedupAux]
    by_cases h : normDesc o.description ∈ seen
    · rw [if_pos h]
      exact (ih seen).trans (List.sublist_cons_self o rest)
    · rw [if_neg h]
      exact (ih _).cons₂ o

/-- **C7** — deduplication is idempotent, keeps the first obligation per
distinct normalized description (lower-cased, non-word characters stripped) and
preserves the original order: the output is a sublist of the input, the empty
list maps to itself, and deduplicating `o :: l` keeps `o` and deduplicates the
rest with `o`'s normalized description filtered away. -/
theorem deduplicate_obligations_spec :
    (∀ l : List Obligation,
      deduplicate_obligations (deduplicate_obligations l) = deduplicate_obligations l) ∧
    (∀ l : List Obligation, (deduplicate_obligations l).Sublist l) ∧
    deduplicate_obligations ([] : List Obligation) = [] ∧
    (∀ (o : Obligation) (l : List Obligation),
      deduplicate_obligations (o :: l) =
        o :: deduplicate_obligations
          (l.filter (fun x => normDesc x.description ≠ normDesc o.description))) := by
  refine ⟨?_, ?_, rfl, ?_⟩
  · intro l
    exact dedupAux_fixed _ _ (fun x _ => by simp) (dedupAux_pairwise l [])
  · intro l
    exact dedupAux_sublist l []
  · intro o l
    show dedupAux [] (o :: l) = _
    simp only [dedupAux]
    rw [if_neg (by simp)]
    exact congrArg _ (dedupAux_seen_filter l [] (normDesc o.description))

/-! ## Deadline parser (`src/extractor/deadline_parser.py`)

The regular expressions of `parse_deadline` are compiled by hand into
deterministic scanners over the original character list.  Matching is
case-insensitive where the source pattern carries `(?i)`; captures return the
original-case slice, as `match.group` does.  Scanning `scanOpt`/`scanG0` tries
every start position left to right (`re.search` leftmost-match semantics). -/

/-- `\s+`: requires one whitespace character, consumes the maximal run.
(Maximal munch is faithful: in every use the following token starts with a
digit or letter, which is never whitespace, and a trailing `(.*)` imposes no
constraint that could force backtracking into the run.) -/
def spacesTok : List Char → Option (List Char)
  | c :: rest => if pyIsSpace c then some (rest.dropWhile pyIsSpace) else none
  | [] => none

/-- `(\d+)`: captures the maximal digit run (the next token is never a digit). -/
def digitsTok (cs : List Char) : Option (List Char × List Char) :=
  let ds := cs.takeWhile isDig
  if ds = [] then none else some (ds, cs.dropWhile isDig)

/-- Ordered alternation of case-insensitive literals.  In every alternation of
the source the alternatives start with pairwise-distinct characters, so at most
one alternative can apply at a given position and the first-match loop is
exactly the regex alternation semantics. -/
def altLitCI : List (List Char) → List Char → Option (List Char)
  | [], _ => none
  | lit :: lits, cs =>
    match stripLitCI lit cs with
    | some rest => some rest
    | none => altLitCI lits cs

/-- `(days?|months?|weeks?|years?)` with original-case capture.  The optional
`s` is taken greedily; dropping it could never rescue a failed continuation
because the next token is `\s+` and `s` is not whitespace. -/
def unitTok (cs : List Char) : Option (List Char × List Char) :=
  let rootLen : Option Nat :=
    if (stripLitCI "day".toList cs).isSome then some 3
    else if (stripLitCI "month".toList cs).isSome then some 5
    else if (stripLitCI "week".toList cs).isSome then some 4
    else if (stripLitCI "year".toList cs).isSome then some 4
    else none
  match rootLen with
  | none => none
  | some n =>
    match cs.drop n with
    | c :: r2 => if c.toLower = 's' then some (cs.take (n + 1), r2) else some (cs.take n, cs.drop n)
    | [] => some (cs.take n, [])

/-- `(.*)` without `DOTALL`: everything up to the next newline. -/
def dotStar (cs : List Char) : List Char := cs.takeWhile (fun c => c ≠ '\n')

/-- Deadline pattern 1 (line 26),
`(?i)(?:within|after|by|no later than)\s+(\d+)\s+(days?|months?|weeks?|years?)\s+(?:after|of|following)\s+(.*)`,
attempted at one start position; returns the three captures. -/
def tryPat1At (cs : List Char) : Option (String × String × String) := do
  let r1 ← altLitCI ["within".toList, "after".toList, "by".toList, "no later than".toList] cs
  let r2 ← spacesTok r1
  let (q, r3) ← digitsTok r2
  let r4 ← spacesTok r3
  let (u, r5) ← unitTok r4
  let r6 ← spacesTok r5
  let r7 ← altLitCI ["after".toList, "of".toList, "following".toList] r6
  let r8 ← spacesTok r7
  pure (String.mk q, String.mk u, String.mk (dotStar r8))

/-- `re.search`: try each start position left to right. -/
def scanOpt {α : Type} (f : List Char → Option α) : List Char → Option α
  | [] => f []
  | c :: cs =>
    match f (c :: cs) with
    | some r => some r
    | none => scanOpt f cs

def findPat1 (text : String) : Option (String × String × String) :=
  scanOpt tryPat1At text.toList

/-- Deadline pattern 2 (line 28),
`(?i)(\d+)\s+(days?|months?|weeks?|years?)\s+(?:before|prior to)\s+(.*)`. -/
def tryPat2At (cs : List Char) : Option (String × String × String) := do
  let (q, r1) ← digitsTok cs
  let r2 ← spacesTok r1
  let (u, r3) ← unitTok r2
  let r4 ← spacesTok r3
  let r5 ← altLitCI ["before".toList, "prior to".toList] r4
  let r6 ← spacesTok r5
  pure (String.mk q, String.mk u, String.mk (dotStar r6))

def findPat2 (text : String) : Option (String × String × String) :=
  scanOpt tryPat2At text.toList

/-- Deadline pattern 3 (line 30),
`(?i)(?:monthly|quarterly|annually|yearly|semi-annually|bi-annually)`.
It can match, but it has zero capture groups, so in the source neither the
`len(match.groups()) >= 3` nor the `>= 1` branch runs: a match changes
nothing.  The definition is recorded for completeness and is not consulted by
`parse_deadline` below. -/
def matchesPat3 (text : String) : Bool :=
  containsCI "monthly" text || containsCI "quarterly" text || containsCI "annually" text ||
    containsCI "yearly" text || containsCI "semi-annually" text || containsCI "bi-annually" text

/-- Immediacy pattern (lines 32 and 59),
`(?i)(?:promptly|immediately|as soon as possible|without delay)`. -/
def matchesImmediate (text : String) : Bool :=
  containsCI "promptly" text || containsCI "immediately" text ||
    containsCI "as soon as possible" text || containsCI "without delay" text

/-- `(month|quarter|year|fiscal year|calendar year)` with original-case
capture, alternatives in source order. -/
def periodAlt (cs : List Char) : Option (List Char) :=
  if (stripLitCI "month".toList cs).isSome then some (cs.take 5)
  else if (stripLitCI "quarter".toList cs).isSome then some (cs.take 7)
  else if (stripLitCI "year".toList cs).isSome then some (cs.take 4)
  else if (stripLitCI "fiscal year".toList cs).isSome then some (cs.take 11)
  else if (stripLitCI "calendar year".toList cs).isSome then some (cs.take 13)
  else none

/-- `(?i)(?:LIT\s+)(month|quarter|year|fiscal year|calendar year)` at one
start position, for `LIT` one of the two period-end pattern stems. -/
def tryPeriodAt (lit : List Char) (cs : List Char) : Option String := do
  let r1 ← stripLitCI lit cs
  let r2 ← spacesTok r1
  let p ← periodAlt r2
  pure (String.mk p)

/-- Period-end pattern 1 (line 68): `(?i)(?:end of\s+)(month|...)`. -/
def findPeriodEnd1 (text : String) : Option String :=
  scanOpt (tryPeriodAt "end of".toList) text.toList

/-- Period-end pattern 2 (line 69): `(?i)(?:by end of\s+)(month|...)`.
(Unreachable in practice: any of its matches contains a match of pattern 1.) -/
def findPeriodEnd2 (text : String) : Option String :=
  scanOpt (tryPeriodAt "by end of".toList) text.toList

/-- The `for pattern in period_end_patterns` loop with `break` (lines 71–84):
first pattern that matches wins. -/
def periodEndMatch (text : String) : Option String :=
  match findPeriodEnd1 text with
  | some p => some p
  | none => findPeriodEnd2 text

/-- Leftmost scan that returns `match.group(0)` — the consumed slice. -/
def scanG0 (f : List Char → Option (List Char)) : List Char → Option String
  | [] => (f []).map (fun _ => "")
  | c :: cs =>
    match f (c :: cs) with
    | some rest => some (String.mk ((c :: cs).take ((c :: cs).length - rest.length)))
    | none => scanG0 f cs

/-- General pattern 1 (line 89),
`(?i)(?:monthly|quarterly|annually|yearly|semi-annually|bi-annually|event-based)`. -/
def tryG1At (cs : List Char) : Option (List Char) :=
  altLitCI ["monthly".toList, "quarterly".toList, "annually".toList, "yearly".toList,
    "semi-annually".toList, "bi-annually".toList, "event-based".toList] cs

def findG1 (text : String) : Option String := scanG0 tryG1At text.toList

/-- General pattern 2 (line 90), `(?i)(?:within\s+\d+\s+days?)`. -/
def tryG2At (cs : List Char) : Option (List Char) := do
  let r1 ← stripLitCI "within".toList cs
  let r2 ← spacesTok r1
  let (_, r3) ← digitsTok r2
  let r4 ← spacesTok r3
  let r5 ← stripLitCI "day".toList r4
  match r5 with
  | c :: r6 => if c.toLower = 's' then pure r6 else pure r5
  | [] => pure []

def findG2 (text : String) : Option String := scanG0 tryG2At text.toList

/-- General pattern 3 (line 91),
`(?i)(?:by\s+\w+\s+\d{1,2}(?:st|nd|rd|th)?,\s*\d{4})`.  `\w+` is consumed
maximally (the next token `\s+` cannot start with a word character);
`\d{1,2}` greedily takes two digits — a failed continuation could not succeed
with one digit either, because the remaining digit can start neither the
ordinal suffix nor the comma; the optional suffix is equally deterministic. -/
def tryG3At (cs : List Char) : Option (List Char) := do
  let r1 ← stripLitCI "by".toList cs
  let r2 ← spacesTok r1
  let w := r2.takeWhile pyIsWordChar
  if w = [] then none else
  let r3 := r2.drop w.length
  let r4 ← spacesTok r3
  match r4 with
  | d1 :: r5 =>
    if isDig d1 then
      let r6 : List Char :=
        match r5 with
        | d2 :: r7 => if isDig d2 then r7 else r5
        | [] => r5
      let r7 : List Char :=
        match altLitCI ["st".toList, "nd".toList, "rd".toList, "th".toList] r6 with
        | some r => r
        | none => r6
      match r7 with
      | ',' :: r8 =>
        let r9 := r8.dropWhile pyIsSpace
        match r9 with
        | a :: b :: c2 :: d :: rest2 =>
          if isDig a && isDig b && isDig c2 && isDig d then some rest2 else none
        | _ => none
      | _ => none
    else none
  | [] => none

def findG3 (text : String) : Option String := scanG0 tryG3At text.toList

/-- `today.replace(day = calendar.monthrange(today.year, today.month)[1])`
(lines 139–141). -/
def month_end (today : Date) : Date :=
  { today with day := daysInMonth today.year today.month }

/-- Lines 145–151: current quarter, its final month, last day of that month. -/
def quarter_end (today : Date) : Date :=
  let q := Int.fdiv (today.month - 1) 3 + 1
  let qem := q * 3
  { today with month := qem, day := daysInMonth today.year qem }

/-- `today.replace(month=12, day=31)` (line 156). -/
def year_end (today : Date) : Date :=
  { today with month := 12, day := 31 }

/-- `calculate_expected_date` (lines 107–164).  `datetime.today()` is passed in
as `today`.  The `try` block can fail only at `int(quantity)` or on date-range
overflow; both yield `None`.  Note the unit tests `"day" in unit` etc. are
case-sensitive (`in` on `str`), although the capturing regex was
case-insensitive, and that they precede the reference-anchoring branches. -/
def calculate_expected_date (quantity unit reference : String) (today : Date) : Option Date :=
  match pyIntParse quantity with
  | none => none
  | some qty =>
    if containsSub "day" unit then pyAddDays today qty
    else if containsSub "week" unit then pyAddDays today (7 * qty)
    else if containsSub "month" unit then pyAddDays today (qty * 30)
    else if containsSub "year" unit then pyAddDays today (qty * 365)
    else if containsSub "end of month" (pyLower reference)
        || containsSub "month end" (pyLower reference) then
      pyAddDays (month_end today) qty
    else if containsSub "end of quarter" (pyLower reference)
        || containsSub "quarter end" (pyLower reference) then
      pyAddDays (quarter_end today) qty
    else if containsSub "end of year" (pyLower reference)
        || containsSub "year end" (pyLower reference) then
      pyAddDays (year_end today) qty
    else pyAddDays today qty

/-- The result dict of `parse_deadline` (lines 16–21). -/
structure ParseResult where
  rule : String
  calculated_date : String
  frequency : String
  description : String
deriving DecidableEq

/-- First iteration of the `for pattern in deadline_patterns[:3]` loop
(lines 38–56) — pattern 1 has three groups, so on a match the rule is set and,
when `calculate_expected_date` returns a date, `calculated_date` is set
(`if calculated_date:`). -/
def applyNumeric1 (text : String) (today : Date) (r : ParseResult) : ParseResult :=
  match findPat1 text with
  | none => r
  | some (q, u, ref) =>
    let rule := "within " ++ q ++ " " ++ u ++ " after " ++ ref
    match calculate_expected_date q u ref today with
    | some d => { r with rule := rule, calculated_date := formatDate d }
    | none => { r with rule := rule }

/-- Second loop iteration, pattern 2 — same body, may overwrite pattern 1's
result (the loop has no `break`).  The third iteration, pattern 3, matches with
zero groups and changes nothing (see `matchesPat3`). -/
def applyNumeric2 (text : String) (today : Date) (r : ParseResult) : ParseResult :=
  match findPat2 text with
  | none => r
  | some (q, u, ref) =>
    let rule := "within " ++ q ++ " " ++ u ++ " after " ++ ref
    match calculate_expected_date q u ref today with
    | some d => { r with rule := rule, calculated_date := formatDate d }
    | none => { r with rule := rule }

/-- Immediate/prompt block (lines 58–64). -/
def applyImmediate (text : String) (r : ParseResult) : ParseResult :=
  if matchesImmediate text then
    { r with rule := "immediate upon occurrence", calculated_date := "Upon Event" }
  else r

/-- End-of-period block (lines 66–84).  The `"month" in period` tests are
case-sensitive on the original-case capture. -/
def applyPeriodEnd (text : String) (r : ParseResult) : ParseResult :=
  match periodEndMatch text with
  | none => r
  | some p =>
    let cd :=
      if containsSub "month" p then "End of Month"
      else if containsSub "quarter" p then "End of Quarter"
      else if containsSub "year" p then "End of Year"
      else r.calculated_date
    { r with rule := "by end of " ++ p, calculated_date := cd }

/-- General-fallback block (lines 86–98), entered only when no rule was set. -/
def applyGeneral (text : String) (r : ParseResult) : ParseResult :=
  if r.rule = "" then
    match findG1 text with
    | some m => { r with rule := m }
    | none =>
      match findG2 text with
      | some m => { r with rule := m }
      | none =>
        match findG3 text with
        | some m => { r with rule := m }
        | none => r
  else r

/-- Lines 100–102: default the description to the rule. -/
def applyDescription (r : ParseResult) : ParseResult :=
  if r.description = "" ∧ r.rule ≠ "" then { r with description := r.rule } else r

/-- `parse_deadline` (lines 6–104): the blocks applied in source order to the
initially-empty result dict. -/
def parse_deadline (text : String) (today : Date) : ParseResult :=
  applyDescription (applyGeneral text (applyPeriodEnd text (applyImmediate text
    (applyNumeric2 text today (applyNumeric1 text today ⟨"", "", "", ""⟩)))))

/-! ## `get_compliance_status` (lines 167–197) -/

/-- `%m` of CPython `_strptime`: `(1[0-2]|0[1-9]|[1-9])`.  A two-character
alternative that matches but whose continuation fails cannot be rescued by the
one-character fallback (the leftover digit can never match the following
literal `-`), so the ordered cases are exact. -/
def monthParse : List Char → Option (Int × List Char)
  | '1' :: c :: rest =>
    if '0' ≤ c && c ≤ '2' then some (10 + digitVal c, rest)
    else some (1, c :: rest)
  | '0' :: c :: rest =>
    if '1' ≤ c && c ≤ '9' then some (digitVal c, rest) else none
  | c :: rest => if '1' ≤ c && c ≤ '9' then some (digitVal c, rest) else none
  | [] => none

/-- `%d` of CPython `_strptime`: `(3[01]|[12]\d|0[1-9]|[1-9])`, anchored here
at end of input (the format regex must consume the whole string); since every
alternative is then forced to consume the whole remaining list, the alternative
is determined by the list length and the case split is exact. -/
def dayParse : List Char → Option Int
  | ['3', c] => if c = '0' || c = '1' then some (30 + digitVal c) else none
  | [a, b] =>
    if (a = '1' || a = '2') && isDig b then some (digitVal a * 10 + digitVal b)
    else if a = '0' && ('1' ≤ b && b ≤ '9') then some (digitVal b)
    else none
  | [c] => if '1' ≤ c && c ≤ '9' then some (digitVal c) else none
  | _ => none

/-- `datetime.strptime(s, "%Y-%m-%d")`: `%Y` is exactly four digits, the whole
string must be consumed, and the `datetime` constructor then rejects year 0 and
a day beyond the month's length (all modelled as `none`, i.e. `ValueError`). -/
def strptimeYMD (s : String) : Option Date :=
  match s.toList with
  | y1 :: y2 :: y3 :: y4 :: '-' :: rest =>
    if isDig y1 && isDig y2 && isDig y3 && isDig y4 then
      let y := digitVal y1 * 1000 + digitVal y2 * 100 + digitVal y3 * 10 + digitVal y4
      match monthParse rest with
      | some (m, '-' :: dpart) =>
        match dayParse dpart with
        | some d => if 1 ≤ y ∧ d ≤ daysInMonth y m then some ⟨y, m, d⟩ else none
        | none => none
      | _ => none
    else none
  | _ => none

def USEC_PER_DAY : Int := 86400000000

/-- `get_compliance_status` (lines 167–197).  `(deadline - today).days` is the
floor of the signed microsecond difference over a day's microseconds (Python
`timedelta` normalization); for the positive divisor, Lean's Euclidean `/` on
`Int` is exactly floor division.  The parsed deadline is midnight while `now`
carries the time of day. -/
def get_compliance_status (deadline_date : String) (now : PyDateTime) : String :=
  if deadline_date = "" || deadline_date = "Upon Event"
      || containsSub "End of" deadline_date then
    "Compliant"
  else
    match strptimeYMD deadline_date with
    | none => "Compliant"
    | some d =>
      let diff_days :=
        (toOrdinal d * USEC_PER_DAY - (toOrdinal now.date * USEC_PER_DAY + now.usec))
          / USEC_PER_DAY
      if diff_days < 0 then "Missed"
      else if diff_days ≤ 7 then "Due Soon"
      else "Compliant"

/-! ## Claims C1, C2, C3, C10 — `parse_deadline` -/

/-- Day offset the unit branches of `calculate_expected_date` apply when the
captured unit contains `day`/`week`/`month`/`year` (case-sensitively). -/
def unitOffsetDays (u : String) (n : Int) : Int :=
  if containsSub "day" u then n
  else if containsSub "week" u then 7 * n
  else if containsSub "month" u then n * 30
  else n * 365

theorem applyDescription_rule (r : ParseResult) : (applyDescription r).rule = r.rule := by
  unfold applyDescription; split <;> rfl

theorem applyDescription_cd (r : ParseResult) :
    (applyDescription r).calculated_date = r.calculated_date := by
  unfold applyDescription; split <;> rfl

theorem applyGeneral_of_rule_ne (text : String) (r : ParseResult) (h : ¬ r.rule = "") :
    applyGeneral text r = r := by
  unfold applyGeneral; rw [if_neg h]

/-- Once a rule is set, the general-fallback and description blocks leave
`rule` and `calculated_date` unchanged. -/
theorem pipeline_fields (text : String) (r : ParseResult) (hrule : ¬ r.rule = "") :
    (applyDescription (applyGeneral text r)).rule = r.rule ∧
    (applyDescription (applyGeneral text r)).calculated_date = r.calculated_date := by
  rw [applyGeneral_of_rule_ne text r hrule]
  exact ⟨applyDescription_rule r, applyDescription_cd r⟩

theorem within_rule_ne_empty (q u ref : String) :
    ¬ ("within " ++ q ++ " " ++ u ++ " after " ++ ref) = "" := by
  intro hc
  have hlen := congrArg String.length hc
  simp only [String.length_append] at hlen
  rw [show ("within " : String).length = 7 from rfl,
    show (" " : String).length = 1 from rfl,
    show (" after " : String).length = 7 from rfl,
    show ("" : String).length = 0 from rfl] at hlen
  omega

theorem by_end_rule_ne_empty (p : String) : ¬ ("by end of " ++ p) = "" := by
  intro hc
  have hlen := congrArg String.length hc
  simp only [String.length_append] at hlen
  rw [show ("by end of " : String).length = 10 from rfl,
    show ("" : String).length = 0 from rfl] at hlen
  omega

theorem applyNumeric2_of_match (text : String) (today : Date) (r : ParseResult)
    (q u ref : String) (d : Date)
    (hpat : findPat2 text = some (q, u, ref))
    (hcalc : calculate_expected_date q u ref today = some d) :
    applyNumeric2 text today r =
      { r with
        rule := ("within " ++ q ++ " " ++ u ++ " after " ++ ref)
        calculated_date := formatDate d } := by
  unfold applyNumeric2
  simp only [hpat, hcalc]

/-- On a unit containing a lowercase unit root, `calculate_expected_date` is a
pure forward offset from today. -/
theorem calculate_with_unit (q u ref : String) (today : Date) (n : Int)
    (hn : pyIntParse q = some n)
    (hu : containsSub "day" u = true ∨ containsSub "week" u = true ∨
          containsSub "month" u = true ∨ containsSub "year" u = true) :
    calculate_expected_date q u ref today = pyAddDays today (unitOffsetDays u n) := by
  unfold calculate_expected_date unitOffsetDays
  rw [hn]
  by_cases h1 : containsSub "day" u = true
  · simp [h1]
  · by_cases h2 : containsSub "week" u = true
    · simp [h1, h2]
    · by_cases h3 : containsSub "month" u = true
      · simp [h1, h2, h3]
      · have h4 : containsSub "year" u = true := by tauto
        simp [h1, h2, h3, h4]

/-- **C3** — a sentence matching both the numeric "within N days after …"
pattern and an immediacy word, with no end-of-period phrase, resolves to the
immediacy rule: `rule = "immediate upon occurrence"` and
`calculated_date = "Upon Event"`, not the numeric date. -/
theorem parse_deadline_immediacy_overrides (text : String) (today : Date)
    (g : String × String × String)
    (hnum : findPat1 text = some g)
    (himm : matchesImmediate text = true)
    (hper : periodEndMatch text = none) :
    (parse_deadline text today).rule = "immediate upon occurrence" ∧
    (parse_deadline text today).calculated_date = "Upon Event" := by
  unfold parse_deadline
  set r2 := applyNumeric2 text today (applyNumeric1 text today ⟨"", "", "", ""⟩) with hr2
  have h4 : applyImmediate text r2 =
      { r2 with rule := "immediate upon occurrence", calculated_date := "Upon Event" } := by
    simp [applyImmediate, himm]
  rw [h4]
  have h5 : applyPeriodEnd text
      { r2 with rule := "immediate upon occurrence", calculated_date := "Upon Event" } =
      { r2 with rule := "immediate upon occurrence", calculated_date := "Upon Event" } := by
    simp [applyPeriodEnd, hper]
  rw [h5]
  have := pipeline_fields text
    { r2 with rule := "immediate upon occurrence", calculated_date := "Upon Event" }
    (by simp)
  simpa using this

/-- Witness for C3: an immediacy word beats a matching numeric pattern. -/
theorem parse_deadline_immediacy_overrides_witness :
    (parse_deadline "Borrower shall promptly deliver statements within 30 days after quarter end"
      ⟨2026, 10, 12⟩).rule = "immediate upon occurrence" ∧
    (parse_deadline "Borrower shall promptly deliver statements within 30 days after quarter end"
      ⟨2026, 10, 12⟩).calculated_date = "Upon Event" :=
  parse_deadline_immediacy_overrides
    "Borrower shall promptly deliver statements within 30 days after quarter end"
    ⟨2026, 10, 12⟩ ("30", "days", "quarter end") (by decide) (by decide) (by decide)

/-- **C2, counterexample** — a sentence with both an immediacy word
(`promptly`) and an end-of-period phrase (`end of month`) ends with the
end-of-period rule and sentinel, not the immediacy result the claim
demands: the end-of-period block runs last and overwrites. -/
theorem parse_deadline_period_overrides_immediacy_cex :
    (parse_deadline "The Borrower shall promptly submit reports by end of month"
      ⟨2026, 10, 12⟩).rule = "by end of month" ∧
    (parse_deadline "The Borrower shall promptly submit reports by end of month"
      ⟨2026, 10, 12⟩).calculated_date = "End of Month" ∧
    matchesImmediate "The Borrower shall promptly submit reports by end of month" = true ∧
    ("by end of month" : String) ≠ "immediate upon occurrence" ∧
    ("End of Month" : String) ≠ "Upon Event" := by
  refine ⟨by decide, by decide, by decide, by decide, by decide⟩

/-- **C2, amended** — the end-of-period check overrides *every* earlier match,
the immediacy override included: whenever the end-of-period pattern captures a
period `p` (immediacy word present or not), the result rule is
`"by end of " ++ p`, and `calculated_date` becomes the matching sentinel —
keeping `"Upon Event"` only when the original-case capture `p` contains none of
the lowercase words `month`/`quarter`/`year`. -/
theorem parse_deadline_period_end_wins (text : String) (today : Date) (p : String)
    (himm : matchesImmediate text = true)
    (hper : periodEndMatch text = some p) :
    (parse_deadline text today).rule = "by end of " ++ p ∧
    (parse_deadline text today).calculated_date =
      (if containsSub "month" p then "End of Month"
       else if containsSub "quarter" p then "End of Quarter"
       else if containsSub "year" p then "End of Year"
       else "Upon Event") := by
  unfold parse_deadline
  set r2 := applyNumeric2 text today (applyNumeric1 text today ⟨"", "", "", ""⟩) with hr2
  have h4 : applyImmediate text r2 =
      { r2 with rule := "immediate upon occurrence", calculated_date := "Upon Event" } := by
    simp [applyImmediate, himm]
  rw [h4]
  have h5 : applyPeriodEnd text
      { r2 with rule := "immediate upon occurrence", calculated_date := "Upon Event" } =
      { r2 with
        rule := ("by end of " ++ p)
        calculated_date :=
          (if containsSub "month" p then "End of Month"
           else if containsSub "quarter" p then "End of Quarter"
           else if containsSub "year" p then "End of Year"
           else "Upon Event") } := by
    simp [applyPeriodEnd, hper]
  rw [h5]
  have := pipeline_fields text
    { r2 with
      rule := ("by end of " ++ p)
      calculated_date :=
        (if containsSub "month" p then "End of Month"
         else if containsSub "quarter" p then "End of Quarter"
         else if containsSub "year" p then "End of Year"
         else "Upon Event") }
    (by_end_rule_ne_empty p)
  simpa using this

/-- Witness for C2 (amended). -/
theorem parse_deadline_period_end_wins_witness :
    (parse_deadline "Pay promptly by end of quarter" ⟨2026, 10, 12⟩).rule
      = "by end of quarter" ∧
    (parse_deadline "Pay promptly by end of quarter" ⟨2026, 10, 12⟩).calculated_date
      = "End of Quarter" := by
  have h := parse_deadline_period_end_wins "Pay promptly by end of quarter"
    ⟨2026, 10, 12⟩ "quarter" (by decide) (by decide)
  exact ⟨h.1.trans (by decide), h.2.trans (by decide)⟩

/-- **C10, counterexample** — for the "N units before REFERENCE" sentence
`"5 DAYS before Month End"` (matched case-insensitively, but captured in the
original case), the case-sensitive `"day" in unit` test fails, the function
falls through to the reference checks, `"month end"` anchors at the month end,
and the calculated date is month-end + 5 days — not a forward offset of 5 days
from today as the claim states. -/
theorem parse_deadline_before_cex :
    (parse_deadline "5 DAYS before Month End" ⟨2026, 10, 12⟩).rule
      = "within 5 DAYS after Month End" ∧
    (parse_deadline "5 DAYS before Month End" ⟨2026, 10, 12⟩).calculated_date
      = "2026-11-05" ∧
    pyAddDays ⟨2026, 10, 12⟩ 5 = some ⟨2026, 10, 17⟩ ∧
    formatDate ⟨2026, 10, 17⟩ = "2026-10-17" ∧
    ("2026-11-05" : String) ≠ "2026-10-17" := by
  refine ⟨by decide, by decide, by decide, by decide, by decide⟩

/-- **C10, amended** — for every sentence matching the "N units before/prior to
REFERENCE" pattern with no immediacy word and no end-of-period phrase, the rule
is rewritten with "after" (`"within N units after REFERENCE"`); and whenever
the captured unit contains a lowercase unit root (`day`/`week`/`month`/`year`,
as every all-lowercase capture does), the calculated date is the forward offset
of N units from today (weeks = 7 N days, months ≈ 30 N days, years ≈ 365 N
days), not a date before the reference point. -/
theorem parse_deadline_before_rewrites_to_after (text : String) (today : Date)
    (q u ref : String) (n : Int) (d : Date)
    (hpat : findPat2 text = some (q, u, ref))
    (himm : matchesImmediate text = false)
    (hper : periodEndMatch text = none)
    (hu : containsSub "day" u = true ∨ containsSub "week" u = true ∨
          containsSub "month" u = true ∨ containsSub "year" u = true)
    (hn : pyIntParse q = some n)
    (hadd : pyAddDays today (unitOffsetDays u n) = some d) :
    (parse_deadline text today).rule = "within " ++ q ++ " " ++ u ++ " after " ++ ref ∧
    (parse_deadline text today).calculated_date = formatDate d := by
  unfold parse_deadline
  have hcalc : calculate_expected_date q u ref today = some d :=
    (calculate_with_unit q u ref today n hn hu).trans hadd
  rw [applyNumeric2_of_match text today _ q u ref d hpat hcalc]
  set r1 := applyNumeric1 text today ⟨"", "", "", ""⟩ with hr1
  have h4 : applyImmediate text
      { r1 with
        rule := ("within " ++ q ++ " " ++ u ++ " after " ++ ref)
        calculated_date := formatDate d } =
      { r1 with
        rule := ("within " ++ q ++ " " ++ u ++ " after " ++ ref)
        calculated_date := formatDate d } := by
    simp [applyImmediate, himm]
  rw [h4]
  have h5 : applyPeriodEnd text
      { r1 with
        rule := ("within " ++ q ++ " " ++ u ++ " after " ++ ref)
        calculated_date := formatDate d } =
      { r1 with
        rule := ("within " ++ q ++ " " ++ u ++ " after " ++ ref)
        calculated_date := formatDate d } := by
    simp [applyPeriodEnd, hper]
  rw [h5]
  have := pipeline_fields text
    { r1 with
      rule := ("within " ++ q ++ " " ++ u ++ " after " ++ ref)
      calculated_date := formatDate d }
    (within_rule_ne_empty q u ref)
  simpa using this

/-- Witness for C10 (amended): `"3 days prior to closing"` becomes
`"within 3 days after closing"` dated today + 3 days. -/
theorem parse_deadline_before_rewrites_witness :
    (parse_deadline "3 days prior to closing" ⟨2026, 10, 12⟩).rule
      = "within 3 days after closing" ∧
    (parse_deadline "3 days prior to closing" ⟨2026, 10, 12⟩).calculated_date
      = "2026-10-15" := by
  have h := parse_deadline_before_rewrites_to_after "3 days prior to closing"
    ⟨2026, 10, 12⟩ "3" "days" "closing" 3 ⟨2026, 10, 15⟩ (by decide) (by decide) (by decide)
    (Or.inl (by decide)) (by decide) (by decide)
  exact ⟨h.1.trans (by decide), h.2.trans (by decide)⟩

/-- **C1** — evidence that the end-of-period anchor is never applied for the
claim's inputs: for a parsed quantity with unit `"days"` the function returns
early with today + qty days for *every* reference text (the reference-anchoring
branches are unreachable after the unit branches), so on the spec's own example
sentence the computed deadline is today + 30 days (2026-11-11 for today =
2026-10-12) and not month-end + 30 days (2026-11-30) as the claim requires. -/
theorem calculate_expected_date_no_anchor :
    ∀ (reference : String) (today : Date),
      calculate_expected_date "30" "days" reference today = pyAddDays today 30 ∧
      (parse_deadline
        "Monthly financial statements shall be provided within 30 days after the end of each month."
        ⟨2026, 10, 12⟩).calculated_date = "2026-11-11" ∧
      month_end ⟨2026, 10, 12⟩ = ⟨2026, 10, 31⟩ ∧
      pyAddDays (month_end ⟨2026, 10, 12⟩) 30 = some ⟨2026, 11, 30⟩ ∧
      ("2026-11-11" : String) ≠ "2026-11-30" := by
  intro reference today
  refine ⟨rfl, by decide, by decide, by decide, by decide⟩

/-! ## Claim C9 — `get_compliance_status` -/

/-- The instant (in microseconds since the ordinal epoch) of a parsed deadline,
which `strptime` places at midnight. -/
def deadlineInstantUsec (d : Date) : Int := toOrdinal d * USEC_PER_DAY

/-- The current instant of `datetime.today()`. -/
def nowInstantUsec (t : PyDateTime) : Int := toOrdinal t.date * USEC_PER_DAY + t.usec

/-- Whole days from now until the deadline, rounded toward minus infinity
(`timedelta.days`). -/
def daysUntil (d : Date) (t : PyDateTime) : Int :=
  (deadlineInstantUsec d - nowInstantUsec t) / USEC_PER_DAY

theorem div_usec_neg_iff (x : Int) : x / USEC_PER_DAY < 0 ↔ x < 0 := by
  unfold USEC_PER_DAY
  omega

/-- **C9** — `get_compliance_status` returns `"Compliant"`, without raising,
for the empty string, `"Upon Event"`, any string containing `"End of"`, and any
string that does not parse as a `YYYY-MM-DD` date; for a parseable date it
returns `"Missed"` exactly when the deadline is in the past (its midnight
instant precedes the current instant), `"Due Soon"` when it is within 7 days
(the floor of the day difference from now is at most 7), and `"Compliant"`
otherwise. -/
theorem get_compliance_status_spec (s : String) (now : PyDateTime) :
    ((s = "" ∨ s = "Upon Event" ∨ containsSub "End of" s = true) →
      get_compliance_status s now = "Compliant") ∧
    (strptimeYMD s = none → get_compliance_status s now = "Compliant") ∧
    (∀ d, strptimeYMD s = some d → s ≠ "" → s ≠ "Upon Event" →
      containsSub "End of" s = false →
      get_compliance_status s now =
        (if deadlineInstantUsec d < nowInstantUsec now then "Missed"
         else if daysUntil d now ≤ 7 then "Due Soon"
         else "Compliant")) := by
  refine ⟨?_, ?_, ?_⟩
  · rintro (h | h | h) <;> simp [get_compliance_status, h]
  · intro h
    unfold get_compliance_status
    split
    · rfl
    · rw [h]
  · intro d hd h1 h2 h3
    unfold get_compliance_status
    rw [if_neg (by simp [h1, h2, h3]), hd]
    have hmiss : ((toOrdinal d * USEC_PER_DAY - (toOrdinal now.date * USEC_PER_DAY + now.usec))
          / USEC_PER_DAY < 0)
        ↔ (deadlineInstantUsec d < nowInstantUsec now) := by
      rw [div_usec_neg_iff]
      unfold deadlineInstantUsec nowInstantUsec
      omega
    simp only [daysUntil, deadlineInstantUsec, nowInstantUsec] at hmiss ⊢
    simp only [hmiss]

/-- Witness for C9: a far-future parseable date is `"Compliant"`. -/
theorem get_compliance_status_spec_witness :
    get_compliance_status "2030-01-01" ⟨⟨2026, 10, 12⟩, 0⟩ = "Compliant" := by
  have h := (get_compliance_status_spec "2030-01-01" ⟨⟨2026, 10, 12⟩, 0⟩).2.2
    ⟨2030, 1, 1⟩ (by decide) (by decide) (by decide) (by decide)
  rw [h]
  decide
